import Mathlib

/-!
Shallow embedding of the telegram-support-bot core
(`src/support_bot/topic_manager.py`, `src/support_bot/db.py`,
`src/support_bot/handlers/operator.py`).

The Messaging Gateway is modelled by a script of prescribed results, one per
gateway call, together with a trace of the calls made; the Conversation Store
is modelled by pure list-valued tables with a script of success flags for
consecutive writes, so store failures can be injected.  All state passing is
explicit: each embedded operation maps a state to a result
(`Except Err α`) paired with the successor state.
-/

namespace SupportBot

/-! ## String helpers (Python `in` on str, `str.lower`, slicing) -/

/-- `charsStartWith n h`: the char list `n` is an initial segment of `h`
(Python substring test at position 0). -/
def charsStartWith : List Char → List Char → Bool
  | [], _ => true
  | _ :: _, [] => false
  | a :: as, b :: bs => a == b && charsStartWith as bs

/-- `charsContain n h`: `n` occurs as a contiguous run inside `h`
(Python `n in h` for strings). -/
def charsContain : List Char → List Char → Bool
  | n, [] => n.isEmpty
  | n, h =>
    charsStartWith n h ||
      match h with
      | [] => n.isEmpty
      | _ :: t => charsContain n t

/-- Python `needle in hay` on strings. -/
def strContains (needle hay : String) : Bool :=
  charsContain needle.data hay.data

/-- Python `s.lower()` (ASCII-adequate model via `Char.toLower`). -/
def strLower (s : String) : String :=
  ⟨s.data.map Char.toLower⟩

/-- Python `s[:n]`. -/
def strTake (s : String) (n : Nat) : String :=
  ⟨s.data.take n⟩

/-! ## Data model (`db.py` rows, plus the intra-process message views) -/

/-- Row of the `conversations` table: `user_id` is the primary key,
`topic_id` carries a non-unique index, `active` is the 0/1 flag.
Timestamps are omitted (never read by the core logic). -/
structure Conversation where
  user_id : Int
  topic_id : Int
  active : Bool
deriving DecidableEq, Repr

/-- Modelled from the spec: row of the MessageLink table.  `db.py` in the
repository does not contain `Database.log_message_link` /
`Database.find_linked_message_id` (they are called from
`topic_manager.py` and `handlers/operator.py`); the record shape follows
the call sites and spec section 4.3. -/
structure MessageLink where
  user_id : Int
  source_chat_id : Int
  source_message_id : Int
  target_chat_id : Int
  target_message_id : Int
deriving DecidableEq, Repr

/-- The Conversation Store: conversations keyed by user id, message links,
and the audit `messages` table deduplicated by (chat_id, message_id). -/
structure DB where
  conversations : List Conversation
  links : List MessageLink
  messages : List (Int × Int)
deriving DecidableEq, Repr

/-- `aiogram` User as read by the core: id, bot flag, full name, username. -/
structure MsgUser where
  id : Int
  is_bot : Bool
  full_name : String
  username : Option String
deriving DecidableEq, Repr

/-- `aiogram` Message restricted to the fields the core reads.
`reply_to_message_id` stands for `message.reply_to_message.message_id`
(the only projection of `reply_to_message` the code uses);
`entityTypes` stands for the `type` fields of `message.entities`. -/
structure Msg where
  message_id : Int
  chat_id : Int
  content_type : String
  text : Option String
  entityTypes : List String
  reply_to_message_id : Option Int
  message_thread_id : Option Int
  from_user : Option MsgUser
deriving DecidableEq, Repr

/-- `TopicRef` dataclass of `topic_manager.py`. -/
structure TopicRef where
  user_id : Int
  topic_id : Int
deriving DecidableEq, Repr

/-! ## Pure store operations (`db.py`) -/

/-- `Database.get_active_conversation`: fetch the row keyed by `user_id`
(SQL primary-key lookup, first row), return it only when active. -/
def get_active_conversation (db : DB) (uid : Int) : Option Conversation :=
  match db.conversations.find? (fun c => c.user_id == uid) with
  | none => none
  | some c => if c.active then some c else none

/-- `Database.set_conversation`: `INSERT .. ON CONFLICT(user_id) DO UPDATE`
— replace the row keyed by `uid` if present, else append it. -/
def set_conversation_rows (rows : List Conversation) (uid tid : Int) (active : Bool) :
    List Conversation :=
  if rows.any (fun c => c.user_id == uid) then
    rows.map (fun c => if c.user_id == uid then ⟨uid, tid, active⟩ else c)
  else
    rows ++ [⟨uid, tid, active⟩]

/-- `Database.deactivate_conversation`:
`UPDATE conversations SET active=0 WHERE user_id=?`. -/
def deactivate_rows (rows : List Conversation) (uid : Int) : List Conversation :=
  rows.map (fun c => if c.user_id == uid then { c with active := false } else c)

/-- `Database.find_user_id_by_topic`:
`SELECT user_id FROM conversations WHERE topic_id = ? AND active = 1`
(first matching row). -/
def find_user_id_by_topic (db : DB) (tid : Int) : Option Int :=
  (db.conversations.find? (fun c => c.topic_id == tid && c.active)).map
    (fun c => c.user_id)

/-- Modelled from the spec: `Database.find_linked_message_id` is absent from
`db.py`; spec section 4.3 — `resolve(source_chat, source_msg,
expected_target_chat) -> optional target_msg`, absence a normal result. -/
def find_linked_message_id (links : List MessageLink) (sc sm tc : Int) : Option Int :=
  (links.find? (fun l =>
      l.source_chat_id == sc && l.source_message_id == sm && l.target_chat_id == tc)).map
    (fun l => l.target_message_id)

/-- Modelled from the spec: `Database.log_message_link` is absent from
`db.py`; spec section 4.3 — `record_link` is an idempotent upsert:
recording an identical record twice is a no-op, else the record is appended. -/
def record_link (links : List MessageLink) (l : MessageLink) : List MessageLink :=
  if l ∈ links then links else links ++ [l]

/-- `Database.log_message` restricted to its dedup key:
`INSERT .. ON CONFLICT(chat_id, message_id) DO NOTHING`. -/
def log_message_rows (msgs : List (Int × Int)) (chat mid : Int) : List (Int × Int) :=
  if (chat, mid) ∈ msgs then msgs else msgs ++ [(chat, mid)]

/-! ## Effects: gateway script/trace, store write script, transactions -/

/-- A Messaging Gateway invocation, as recorded in the trace. -/
inductive GwCall where
  | createTopic (chat : Int) (name : String)
  | sendMsg (chat : Int) (thread : Option Int) (text : String) (reply : Option Int)
  | copyMsg (chat fromChat msgId : Int) (thread : Option Int) (reply : Option Int)
deriving DecidableEq, Repr

/-- The Gateway's prescribed answer to one call: a fresh id on success, or a
typed failure (`TelegramForbiddenError` / `TelegramBadRequest{message}`). -/
inductive GwResult where
  | ok (id : Int)
  | forbidden
  | badRequest (msg : String)
deriving DecidableEq, Repr

/-- Failures that can propagate out of the embedded operations. -/
inductive Err where
  | forbidden
  | badRequest (msg : String)
  | storeFailure
  | noFromUser
deriving DecidableEq, Repr

/-- Whole-world state: store contents, remaining gateway script, trace of
gateway calls made so far, remaining store-write success flags. -/
structure St where
  db : DB
  gwScript : List GwResult
  gwTrace : List GwCall
  dbScript : List Bool
deriving DecidableEq, Repr

/-- Perform one Gateway call: consume the next scripted result (an exhausted
script answers `ok 0`) and append the call to the trace. -/
def gwCall (c : GwCall) (s : St) : Except Err Int × St :=
  let s' : St := { s with gwScript := s.gwScript.tail, gwTrace := s.gwTrace ++ [c] }
  match s.gwScript.headD (GwResult.ok 0) with
  | GwResult.ok i => (Except.ok i, s')
  | GwResult.forbidden => (Except.error Err.forbidden, s')
  | GwResult.badRequest m => (Except.error (Err.badRequest m), s')

/-- Perform one store write: consume the next success flag (an exhausted
script means success); on failure raise `storeFailure` without applying. -/
def dbWrite (f : DB → DB) (s : St) : Except Err Unit × St :=
  let s' : St := { s with dbScript := s.dbScript.tail }
  if s.dbScript.headD true then
    (Except.ok (), { s' with db := f s'.db })
  else
    (Except.error Err.storeFailure, s')

/-- `Database.transaction`: run the body; on failure roll the store back to
its pre-transaction contents and re-raise, else commit (keep the body's
store). Gateway trace and consumed scripts are not rolled back. -/
def withTransaction (body : St → Except Err α × St) (s : St) : Except Err α × St :=
  match body s with
  | (Except.ok a, s') => (Except.ok a, s')
  | (Except.error e, s') => (Except.error e, { s' with db := s.db })

/-! ## `topic_manager.py` helpers -/

/-- `_topic_name`: display name, optional `(@username)`, `[id]`, cut to 128. -/
def topic_name (u : MsgUser) : String :=
  let base := if u.full_name == "" then "User" else u.full_name
  let base :=
    match u.username with
    | some un => base ++ " (@" ++ un ++ ")"
    | none => base
  strTake (base ++ " [" ++ toString u.id ++ "]") 128

/-- `_is_thread_missing`: classify a `TelegramBadRequest` message as
destination-thread-missing/closed. -/
def is_thread_missing (msg : String) : Bool :=
  let m := strLower msg
  strContains "message thread not found" m ||
    strContains "message thread is not found" m ||
    strContains "thread not found" m ||
    (strContains "topic" m && strContains "closed" m)

/-- `_message_has_links`: a `url`/`text_link` entity, or a link-looking
substring of the text. -/
def message_has_links (m : Msg) : Bool :=
  m.entityTypes.any (fun t => t == "url" || t == "text_link") ||
    (let text := m.text.getD ""
     strContains "http://" text || strContains "https://" text ||
       strContains "t.me/" text || strContains "www." text)

/-- Introductory notice posted into a freshly created topic. -/
def new_conversation_text (u : MsgUser) : String :=
  let usernameLine :=
    match u.username with
    | some un => "@" ++ un
    | none => "—"
  "New conversation.\nUser: " ++ u.full_name ++ "\nID: <code>" ++ toString u.id ++
    "</code>\nUsername: " ++ usernameLine

/-- Failure notice posted into the topic when a copy fails with a
non-thread-missing `BadRequest`. -/
def copy_failed_text (m : Msg) (errMsg : String) : String :=
  "Failed to copy the user's message.\ntype=" ++ m.content_type ++
    ", message_id=" ++ toString m.message_id ++ "\nerror=" ++ errMsg

/-! ## `TopicManager` operations

The `operator_group_id` constructor argument is passed explicitly.  The
per-user `asyncio.Lock` is the identity in this sequential embedding (it
only orders concurrent tasks; section modelling claim C7 treats it
explicitly). -/

/-- `TopicManager.ensure_topic`: return the active conversation's topic if
present; otherwise create a forum topic at the Gateway, persist the
Conversation row (committed immediately), then post the introductory
notice into the new topic. -/
def ensure_topic (opGroup : Int) (u : MsgUser) (s : St) : Except Err TopicRef × St :=
  match get_active_conversation s.db u.id with
  | some c => (Except.ok ⟨u.id, c.topic_id⟩, s)
  | none =>
    match gwCall (GwCall.createTopic opGroup (topic_name u)) s with
    | (Except.error e, s1) => (Except.error e, s1)
    | (Except.ok tid, s1) =>
      match dbWrite (fun db =>
          { db with conversations := set_conversation_rows db.conversations u.id tid true }) s1 with
      | (Except.error e, s2) => (Except.error e, s2)
      | (Except.ok _, s2) =>
        match gwCall (GwCall.sendMsg opGroup (some tid) (new_conversation_text u) none) s2 with
        | (Except.error e, s3) => (Except.error e, s3)
        | (Except.ok _, s3) => (Except.ok ⟨u.id, tid⟩, s3)

/-- `TopicManager._build_reply_params`: resolve the replied-to message to its
copy in the target chat; `none` both when the message replies to nothing
and when no link resolves.  The returned id is the reply target
(`ReplyParameters.message_id`). -/
def build_reply_params (links : List MessageLink) (sourceChat : Int)
    (replyTo : Option Int) (targetChat : Int) : Option Int :=
  match replyTo with
  | none => none
  | some rid => find_linked_message_id links sourceChat rid targetChat

/-- `TopicManager._log_message_link`: write the forward link and its mirror
inside one `Database.transaction`. -/
def log_message_link (uid sc sm tc tm : Int) (s : St) : Except Err Unit × St :=
  withTransaction (fun s0 =>
    match dbWrite (fun db =>
        { db with links := record_link db.links ⟨uid, sc, sm, tc, tm⟩ }) s0 with
    | (Except.error e, s1) => (Except.error e, s1)
    | (Except.ok _, s1) =>
      dbWrite (fun db =>
        { db with links := record_link db.links ⟨uid, tc, tm, sc, sm⟩ }) s1) s

/-- `TopicManager.copy_user_message_to_topic`: ensure the topic, resolve the
reply target, copy; on success log the link pair.  On `Forbidden`: one
fallback plain send only for link-bearing text, its own Gateway failures
swallowed.  On non-thread-missing `BadRequest`: one best-effort failure
notice, any failure of it swallowed.  On thread-missing `BadRequest`:
deactivate, ensure a fresh topic, retry the copy once with no reply
threading; failures of the retry propagate. -/
def copy_user_message_to_topic (opGroup : Int) (m : Msg) (s : St) :
    Except Err TopicRef × St :=
  match m.from_user with
  | none => (Except.error Err.noFromUser, s)
  | some u =>
    match ensure_topic opGroup u s with
    | (Except.error e, s1) => (Except.error e, s1)
    | (Except.ok topic, s1) =>
      let replyParams := build_reply_params s1.db.links m.chat_id m.reply_to_message_id opGroup
      match gwCall (GwCall.copyMsg opGroup m.chat_id m.message_id (some topic.topic_id) replyParams) s1 with
      | (Except.ok copyId, s2) =>
        match log_message_link u.id m.chat_id m.message_id opGroup copyId s2 with
        | (Except.error e, s3) => (Except.error e, s3)
        | (Except.ok _, s3) => (Except.ok topic, s3)
      | (Except.error Err.forbidden, s2) =>
        if m.content_type == "text" && message_has_links m then
          match gwCall (GwCall.sendMsg opGroup (some topic.topic_id) (m.text.getD "") replyParams) s2 with
          | (Except.ok sentId, s3) =>
            match log_message_link u.id m.chat_id m.message_id opGroup sentId s3 with
            | (Except.error e, s4) => (Except.error e, s4)
            | (Except.ok _, s4) => (Except.ok topic, s4)
          | (Except.error Err.forbidden, s3) => (Except.ok topic, s3)
          | (Except.error (Err.badRequest _), s3) => (Except.ok topic, s3)
          | (Except.error e, s3) => (Except.error e, s3)
        else
          (Except.ok topic, s2)
      | (Except.error (Err.badRequest bq), s2) =>
        if is_thread_missing bq then
          match dbWrite (fun db =>
              { db with conversations := deactivate_rows db.conversations u.id }) s2 with
          | (Except.error e, s3) => (Except.error e, s3)
          | (Except.ok _, s3) =>
            match ensure_topic opGroup u s3 with
            | (Except.error e, s4) => (Except.error e, s4)
            | (Except.ok topic2, s4) =>
              match gwCall (GwCall.copyMsg opGroup m.chat_id m.message_id (some topic2.topic_id) none) s4 with
              | (Except.error e, s5) => (Except.error e, s5)
              | (Except.ok copyId, s5) =>
                match log_message_link u.id m.chat_id m.message_id opGroup copyId s5 with
                | (Except.error e, s6) => (Except.error e, s6)
                | (Except.ok _, s6) => (Except.ok topic2, s6)
        else
          match gwCall (GwCall.sendMsg opGroup (some topic.topic_id)
              (copy_failed_text m bq) none) s2 with
          | (_, s3) => (Except.ok topic, s3)
      | (Except.error e, s2) => (Except.error e, s2)

/-! ## `handlers/operator.py` -/

/-- Notice sent when the user is unreachable (`TelegramForbiddenError`). -/
def user_blocked_text : String :=
  "The user has blocked the bot or has not opened the chat with the bot."

/-- Notice sent when the copy to the user fails with a `BadRequest`. -/
def send_failed_text (errMsg : String) : String :=
  "Failed to send to the user: " ++ errMsg

/-- `topic_message_to_user`: guard clauses (no sender / bot sender / no
thread id / no active conversation for the thread) return with no effect;
then resolve the reply link, copy to the user; on `Forbidden` or
`BadRequest` reply with a notice (the reply itself unguarded); on success
log the link pair atomically, then append the audit message row. -/
def topic_message_to_user (m : Msg) (logMessages : Bool) (s : St) :
    Except Err Unit × St :=
  match m.from_user with
  | none => (Except.ok (), s)
  | some u =>
    if u.is_bot then (Except.ok (), s)
    else
      match m.message_thread_id with
      | none => (Except.ok (), s)
      | some tid =>
        match find_user_id_by_topic s.db tid with
        | none => (Except.ok (), s)
        | some uid =>
          let replyParams := build_reply_params s.db.links m.chat_id m.reply_to_message_id uid
          match gwCall (GwCall.copyMsg uid m.chat_id m.message_id none replyParams) s with
          | (Except.error Err.forbidden, s1) =>
            match gwCall (GwCall.sendMsg m.chat_id (some tid) user_blocked_text
                (some m.message_id)) s1 with
            | (Except.error e, s2) => (Except.error e, s2)
            | (Except.ok _, s2) => (Except.ok (), s2)
          | (Except.error (Err.badRequest bq), s1) =>
            match gwCall (GwCall.sendMsg m.chat_id (some tid) (send_failed_text bq)
                (some m.message_id)) s1 with
            | (Except.error e, s2) => (Except.error e, s2)
            | (Except.ok _, s2) => (Except.ok (), s2)
          | (Except.error e, s1) => (Except.error e, s1)
          | (Except.ok copyId, s1) =>
            match log_message_link uid m.chat_id m.message_id uid copyId s1 with
            | (Except.error e, s2) => (Except.error e, s2)
            | (Except.ok _, s2) =>
              if logMessages then
                match dbWrite (fun db =>
                    { db with messages := log_message_rows db.messages m.chat_id m.message_id }) s2 with
                | (Except.error e, s3) => (Except.error e, s3)
                | (Except.ok _, s3) => (Except.ok (), s3)
              else
                (Except.ok (), s2)

/-! ## Trace accounting -/

/-- Number of topic-creation Gateway calls in a trace. -/
def countCreates (tr : List GwCall) : Nat :=
  tr.countP (fun c => match c with | GwCall.createTopic _ _ => true | _ => false)

/-! ## Basic lemmas about the embedded store and gateway -/

theorem mem_record_link_self (links : List MessageLink) (l : MessageLink) :
    l ∈ record_link links l := by
  unfold record_link
  split
  · assumption
  · exact List.mem_append_right _ (List.mem_singleton.mpr rfl)

theorem mem_record_link_of_mem (links : List MessageLink) (l x : MessageLink)
    (hx : x ∈ links) : x ∈ record_link links l := by
  unfold record_link
  split
  · exact hx
  · exact List.mem_append_left _ hx

theorem gwCall_db (c : GwCall) (s : St) : (gwCall c s).2.db = s.db := by
  unfold gwCall
  split <;> rfl

theorem dbWrite_error (f : DB → DB) (s : St) (e : Err)
    (h : (dbWrite f s).1 = Except.error e) : e = Err.storeFailure := by
  unfold dbWrite at h
  split at h
  · simp at h
  · simp at h
    exact h.symm

theorem log_message_link_error (uid sc sm tc tm : Int) (s : St) (e : Err)
    (h : (log_message_link uid sc sm tc tm s).1 = Except.error e) :
    e = Err.storeFailure := by
  rcases s with ⟨db, gws, gwt, dbs⟩
  match dbs with
  | [] => simp [log_message_link, withTransaction, dbWrite] at h
  | [b] =>
    cases b <;> simp [log_message_link, withTransaction, dbWrite] at h
    exact h.symm
  | b1 :: b2 :: rest =>
    cases b1 <;> cases b2 <;> simp [log_message_link, withTransaction, dbWrite] at h <;>
      exact h.symm

/-- C2: the forward MessageLink and its mirror are written in one atomic
unit: any failure leaves the Store exactly as before (neither record
observable beyond what was already there), and success makes both records
observable (members of the link table), so a reply can be resolved from
either side. -/
theorem c2_link_pair_atomic (uid sc sm tc tm : Int) (s : St) :
    (∀ e, (log_message_link uid sc sm tc tm s).1 = Except.error e →
        ((log_message_link uid sc sm tc tm s).2).db = s.db) ∧
    ((log_message_link uid sc sm tc tm s).1 = Except.ok () →
        MessageLink.mk uid sc sm tc tm ∈ ((log_message_link uid sc sm tc tm s).2).db.links ∧
        MessageLink.mk uid tc tm sc sm ∈ ((log_message_link uid sc sm tc tm s).2).db.links) := by
  rcases s with ⟨db, gws, gwt, dbs⟩
  have hok : ∀ links : List MessageLink,
      MessageLink.mk uid sc sm tc tm ∈
        record_link (record_link links (MessageLink.mk uid sc sm tc tm))
          (MessageLink.mk uid tc tm sc sm) ∧
      MessageLink.mk uid tc tm sc sm ∈
        record_link (record_link links (MessageLink.mk uid sc sm tc tm))
          (MessageLink.mk uid tc tm sc sm) := by
    intro links
    exact ⟨mem_record_link_of_mem _ _ _ (mem_record_link_self _ _),
      mem_record_link_self _ _⟩
  match dbs with
  | [] =>
    refine ⟨fun e he => ?_, fun _ => ?_⟩
    · simp [log_message_link, withTransaction, dbWrite] at he
    · simpa [log_message_link, withTransaction, dbWrite] using hok db.links
  | [b] =>
    cases b
    · exact ⟨fun e he => by simp [log_message_link, withTransaction, dbWrite],
        fun hc => by simp [log_message_link, withTransaction, dbWrite] at hc⟩
    · refine ⟨fun e he => ?_, fun _ => ?_⟩
      · simp [log_message_link, withTransaction, dbWrite] at he
      · simpa [log_message_link, withTransaction, dbWrite] using hok db.links
  | b1 :: b2 :: rest =>
    cases b1 <;> cases b2
    · exact ⟨fun e he => by simp [log_message_link, withTransaction, dbWrite],
        fun hc => by simp [log_message_link, withTransaction, dbWrite] at hc⟩
    · exact ⟨fun e he => by simp [log_message_link, withTransaction, dbWrite],
        fun hc => by simp [log_message_link, withTransaction, dbWrite] at hc⟩
    · exact ⟨fun e he => by simp [log_message_link, withTransaction, dbWrite],
        fun hc => by simp [log_message_link, withTransaction, dbWrite] at hc⟩
    · refine ⟨fun e he => ?_, fun _ => ?_⟩
      · simp [log_message_link, withTransaction, dbWrite] at he
      · simpa [log_message_link, withTransaction, dbWrite] using hok db.links

/-- Witness for C2: concrete run where the mirror write fails right after
the forward write succeeded — the Store is rolled back to empty. -/
theorem c2_link_pair_atomic_witness :
    ((log_message_link 7 100 1 999 501
        (St.mk (DB.mk [] [] []) [] [] [true, false])).2).db = DB.mk [] [] [] :=
  (c2_link_pair_atomic 7 100 1 999 501
      (St.mk (DB.mk [] [] []) [] [] [true, false])).1 Err.storeFailure rfl

/-! ## Conversation-table lemmas -/

theorem find?_deactivate_rows (rows : List Conversation) (uid : Int) :
    (deactivate_rows rows uid).find? (fun c => c.user_id == uid) =
      (rows.find? (fun c => c.user_id == uid)).map (fun c => { c with active := false }) := by
  induction rows with
  | nil => rfl
  | cons c rest ih =>
    by_cases h : c.user_id = uid
    · simp [deactivate_rows, List.find?_cons, h]
    · have hb : (c.user_id == uid) = false := by simp [h]
      simp only [deactivate_rows, List.map_cons, List.find?_cons, hb, Bool.false_eq_true,
        if_false] at ih ⊢
      exact ih

theorem get_active_deactivate (rows : List Conversation) (ls : List MessageLink)
    (ms : List (Int × Int)) (uid : Int) :
    get_active_conversation (DB.mk (deactivate_rows rows uid) ls ms) uid = none := by
  unfold get_active_conversation
  simp only [find?_deactivate_rows]
  cases rows.find? (fun c => c.user_id == uid) <;> simp

theorem find?_upsert_map (rows : List Conversation) (uid tid : Int) (a : Bool)
    (h : rows.any (fun c => c.user_id == uid) = true) :
    (rows.map (fun c => if c.user_id == uid then ⟨uid, tid, a⟩ else c)).find?
      (fun c => c.user_id == uid) = some ⟨uid, tid, a⟩ := by
  induction rows with
  | nil => simp at h
  | cons c rest ih =>
    by_cases hc : c.user_id = uid
    · simp [List.find?_cons, hc]
    · have h' : rest.any (fun c => c.user_id == uid) = true := by
        simp only [List.any_cons] at h
        simpa [hc] using h
      simp only [List.map_cons]
      rw [if_neg (by simp [hc]), List.find?_cons]
      simp only [show (c.user_id == uid) = false by simp [hc]]
      exact ih h'

theorem find?_set_conversation_rows (rows : List Conversation) (uid tid : Int) (a : Bool) :
    (set_conversation_rows rows uid tid a).find? (fun c => c.user_id == uid) =
      some ⟨uid, tid, a⟩ := by
  unfold set_conversation_rows
  split
  case isTrue h => exact find?_upsert_map rows uid tid a h
  case isFalse h =>
    rw [List.find?_append]
    have hnone : rows.find? (fun c => c.user_id == uid) = none := by
      rw [List.find?_eq_none]
      intro c hc
      have := (List.any_eq_false (l := rows) (p := fun c => c.user_id == uid)).mp
        (by simpa using h) c hc
      simpa using this
    simp [hnone, List.find?_cons]

theorem get_active_set_conversation (rows : List Conversation) (ls : List MessageLink)
    (ms : List (Int × Int)) (uid tid : Int) :
    get_active_conversation (DB.mk (set_conversation_rows rows uid tid true) ls ms) uid =
      some ⟨uid, tid, true⟩ := by
  unfold get_active_conversation
  simp only [find?_set_conversation_rows]
  rfl

/-! ## C3: idempotence of `ensure_topic` -/

theorem ensure_topic_creation_run (opGroup : Int) (u : MsgUser) (db : DB)
    (gwt : List GwCall) (t n : Int) (rest : List GwResult)
    (hconv : get_active_conversation db u.id = none) :
    ensure_topic opGroup u
      (St.mk db (GwResult.ok t :: GwResult.ok n :: rest) gwt []) =
      (Except.ok ⟨u.id, t⟩,
        St.mk { db with conversations := set_conversation_rows db.conversations u.id t true }
          rest
          (gwt ++ [GwCall.createTopic opGroup (topic_name u),
            GwCall.sendMsg opGroup (some t) (new_conversation_text u) none])
          []) := by
  simp [ensure_topic, hconv, gwCall, dbWrite]

/-- C3: two consecutive non-concurrent `ensure_topic` calls for a user with
no active Conversation and no intervening deactivation return the same
topic id, make exactly one topic-creation Gateway call in total, and the
second call finds the active Conversation, changing nothing (no Gateway
call, no Store write). -/
theorem c3_ensure_topic_idempotent (opGroup : Int) (u : MsgUser) (db : DB)
    (gwt : List GwCall) (t n : Int) (rest : List GwResult)
    (hconv : get_active_conversation db u.id = none) :
    (ensure_topic opGroup u
        (St.mk db (GwResult.ok t :: GwResult.ok n :: rest) gwt [])).1 =
      Except.ok ⟨u.id, t⟩ ∧
    (ensure_topic opGroup u
        ((ensure_topic opGroup u
          (St.mk db (GwResult.ok t :: GwResult.ok n :: rest) gwt [])).2)) =
      (Except.ok ⟨u.id, t⟩,
        (ensure_topic opGroup u
          (St.mk db (GwResult.ok t :: GwResult.ok n :: rest) gwt [])).2) ∧
    countCreates ((ensure_topic opGroup u
        (St.mk db (GwResult.ok t :: GwResult.ok n :: rest) gwt [])).2).gwTrace =
      countCreates gwt + 1 := by
  rw [ensure_topic_creation_run opGroup u db gwt t n rest hconv]
  refine ⟨rfl, ?_, ?_⟩
  · rw [show (ensure_topic opGroup u
        (St.mk { db with conversations := set_conversation_rows db.conversations u.id t true }
          rest
          (gwt ++ [GwCall.createTopic opGroup (topic_name u),
            GwCall.sendMsg opGroup (some t) (new_conversation_text u) none])
          [])) = _ from rfl]
    unfold ensure_topic
    rw [show get_active_conversation
        (St.mk { db with conversations := set_conversation_rows db.conversations u.id t true }
          rest _ []).db u.id = some ⟨u.id, t, true⟩ from
      get_active_set_conversation db.conversations db.links db.messages u.id t]
  · simp [countCreates, List.countP_append, List.countP_cons]

/-- Witness for C3: concrete fresh user, both calls yield topic 66. -/
theorem c3_ensure_topic_idempotent_witness :
    (ensure_topic 999 (MsgUser.mk 7 false "Alice" none)
        (St.mk (DB.mk [] [] []) [GwResult.ok 66, GwResult.ok 0] [] [])).1 =
      Except.ok ⟨7, 66⟩ :=
  (c3_ensure_topic_idempotent 999 (MsgUser.mk 7 false "Alice" none)
      (DB.mk [] [] []) [] 66 0 [] rfl).1

/-! ## C4: Conversation row written only after the Gateway confirms creation -/

/-- Counterexample for C4 as stated: with the topic creation succeeding
(topic 42) and the introductory notice failing with `Forbidden`, the
failure propagates — but the already-committed Conversation row (user 7,
topic 42, active) remains observable, contradicting "no partial state
remains observable".  `ensure_topic` commits the row before posting the
notice and wraps neither in a transaction. -/
theorem c4_counterexample :
    (ensure_topic 999 (MsgUser.mk 7 false "Alice" none)
        (St.mk (DB.mk [] [] []) [GwResult.ok 42, GwResult.forbidden] [] [])).1 =
      Except.error Err.forbidden ∧
    get_active_conversation
      ((ensure_topic 999 (MsgUser.mk 7 false "Alice" none)
          (St.mk (DB.mk [] [] []) [GwResult.ok 42, GwResult.forbidden] [] [])).2).db 7 =
      some ⟨7, 42, true⟩ := by
  exact ⟨rfl, rfl⟩

/-- C4 amended: the Conversation row is persisted only after the Gateway
confirms topic creation — a failing creation call propagates unwrapped
with the Store untouched; a failing introductory notice also propagates
unwrapped, but the Conversation row committed between the two Gateway
calls remains observable (creation-path writes are not transactional). -/
theorem c4_row_after_creation (opGroup : Int) (u : MsgUser) (db : DB)
    (gwt : List GwCall)
    (hconv : get_active_conversation db u.id = none) :
    (∀ rest,
      (ensure_topic opGroup u (St.mk db (GwResult.forbidden :: rest) gwt [])).1 =
        Except.error Err.forbidden ∧
      ((ensure_topic opGroup u (St.mk db (GwResult.forbidden :: rest) gwt [])).2).db = db) ∧
    (∀ z rest,
      (ensure_topic opGroup u (St.mk db (GwResult.badRequest z :: rest) gwt [])).1 =
        Except.error (Err.badRequest z) ∧
      ((ensure_topic opGroup u (St.mk db (GwResult.badRequest z :: rest) gwt [])).2).db = db) ∧
    (∀ t rest,
      (ensure_topic opGroup u
          (St.mk db (GwResult.ok t :: GwResult.forbidden :: rest) gwt [])).1 =
        Except.error Err.forbidden ∧
      get_active_conversation
        ((ensure_topic opGroup u
            (St.mk db (GwResult.ok t :: GwResult.forbidden :: rest) gwt [])).2).db u.id =
        some ⟨u.id, t, true⟩) := by
  refine ⟨fun rest => ?_, fun z rest => ?_, fun t rest => ?_⟩
  · constructor <;> simp [ensure_topic, hconv, gwCall]
  · constructor <;> simp [ensure_topic, hconv, gwCall]
  · constructor
    · simp [ensure_topic, hconv, gwCall, dbWrite]
    · simp [ensure_topic, hconv, gwCall, dbWrite, get_active_set_conversation]

/-- Witness for C4's amended theorem: a failing creation call leaves the
Store empty. -/
theorem c4_row_after_creation_witness :
    ((ensure_topic 999 (MsgUser.mk 7 false "Alice" none)
        (St.mk (DB.mk [] [] []) [GwResult.forbidden] [] [])).2).db = DB.mk [] [] [] :=
  ((c4_row_after_creation 999 (MsgUser.mk 7 false "Alice" none)
      (DB.mk [] [] []) [] rfl).1 []).2

/-! ## C1: thread-missing recovery with exactly one retry -/

/-- C1: when the Gateway copy fails with a `BadRequest` classified as
thread-missing, `copy_user_message_to_topic` deactivates the user's
Conversation, calls `ensure_topic` once more (exactly one new
topic-creation call), and retries the copy exactly once with no
reply-threading parameters — the trace then holds exactly the failed
copy, the creation, the notice, and the retried copy.  A fresh active
Conversation on the new topic is observable afterwards.  If the retried
copy fails again, that failure propagates unchanged; a success yields the
new `TopicRef`. -/
theorem c1_stale_topic_retry (opGroup : Int) (m : Msg) (u : MsgUser) (c : Conversation)
    (db : DB) (gwt : List GwCall) (r : String) (t n : Int) (res4 : GwResult)
    (restSc : List GwResult)
    (hfu : m.from_user = some u)
    (hconv : get_active_conversation db u.id = some c)
    (hr : is_thread_missing r = true) :
    ((copy_user_message_to_topic opGroup m
        (St.mk db (GwResult.badRequest r :: GwResult.ok t :: GwResult.ok n :: res4 :: restSc)
          gwt [])).2).gwTrace =
      gwt ++ [GwCall.copyMsg opGroup m.chat_id m.message_id (some c.topic_id)
          (build_reply_params db.links m.chat_id m.reply_to_message_id opGroup),
        GwCall.createTopic opGroup (topic_name u),
        GwCall.sendMsg opGroup (some t) (new_conversation_text u) none,
        GwCall.copyMsg opGroup m.chat_id m.message_id (some t) none] ∧
    get_active_conversation
      ((copy_user_message_to_topic opGroup m
          (St.mk db (GwResult.badRequest r :: GwResult.ok t :: GwResult.ok n :: res4 :: restSc)
            gwt [])).2).db u.id = some ⟨u.id, t, true⟩ ∧
    (∀ i, res4 = GwResult.ok i →
      (copy_user_message_to_topic opGroup m
          (St.mk db (GwResult.badRequest r :: GwResult.ok t :: GwResult.ok n :: res4 :: restSc)
            gwt [])).1 = Except.ok ⟨u.id, t⟩) ∧
    (res4 = GwResult.forbidden →
      (copy_user_message_to_topic opGroup m
          (St.mk db (GwResult.badRequest r :: GwResult.ok t :: GwResult.ok n :: res4 :: restSc)
            gwt [])).1 = Except.error Err.forbidden) ∧
    (∀ z, res4 = GwResult.badRequest z →
      (copy_user_message_to_topic opGroup m
          (St.mk db (GwResult.badRequest r :: GwResult.ok t :: GwResult.ok n :: res4 :: restSc)
            gwt [])).1 = Except.error (Err.badRequest z)) := by
  cases res4 with
  | ok i =>
    refine ⟨?_, ?_, ?_, ?_, ?_⟩ <;>
      simp [copy_user_message_to_topic, ensure_topic, hfu, hconv, hr, gwCall, dbWrite,
        log_message_link, withTransaction, get_active_deactivate, get_active_set_conversation]
  | forbidden =>
    refine ⟨?_, ?_, ?_, ?_, ?_⟩ <;>
      simp [copy_user_message_to_topic, ensure_topic, hfu, hconv, hr, gwCall, dbWrite,
        log_message_link, withTransaction, get_active_deactivate, get_active_set_conversation]
  | badRequest z =>
    refine ⟨?_, ?_, ?_, ?_, ?_⟩ <;>
      simp [copy_user_message_to_topic, ensure_topic, hfu, hconv, hr, gwCall, dbWrite,
        log_message_link, withTransaction, get_active_deactivate, get_active_set_conversation]

/-- Witness for C1: concrete run where the retried copy fails with
`Forbidden` — the failure propagates to the caller. -/
theorem c1_stale_topic_retry_witness :
    (copy_user_message_to_topic 999
        (Msg.mk 1 100 "text" (some "hi") [] none none (some (MsgUser.mk 7 false "Alice" none)))
        (St.mk (DB.mk [Conversation.mk 7 55 true] [] [])
          [GwResult.badRequest "message thread not found", GwResult.ok 66, GwResult.ok 0,
            GwResult.forbidden] [] [])).1 = Except.error Err.forbidden :=
  (c1_stale_topic_retry 999
      (Msg.mk 1 100 "text" (some "hi") [] none none (some (MsgUser.mk 7 false "Alice" none)))
      (MsgUser.mk 7 false "Alice" none) (Conversation.mk 7 55 true)
      (DB.mk [Conversation.mk 7 55 true] [] []) [] "message thread not found" 66 0
      GwResult.forbidden [] rfl rfl (by decide)).2.2.2.1 rfl

/-! ## C5: Forbidden handling and the link-bearing-text fallback -/

/-- C5: when the Gateway copy of a user→operator relay raises `Forbidden`:
for a message that is not plain text or carries no link, no further
Gateway call is made, the Store is untouched, and the relay completes as
handled; for plain text containing a link, exactly one fallback
plain-text send is attempted and — whatever its scripted outcome — the
relay completes without raising (Gateway failures of the fallback are
swallowed). -/
theorem c5_forbidden_fallback (opGroup : Int) (m : Msg) (u : MsgUser) (c : Conversation)
    (db : DB) (gwt : List GwCall) (res2 : GwResult) (restSc : List GwResult)
    (hfu : m.from_user = some u)
    (hconv : get_active_conversation db u.id = some c) :
    ((m.content_type == "text" && message_has_links m) = false →
      copy_user_message_to_topic opGroup m
          (St.mk db (GwResult.forbidden :: res2 :: restSc) gwt []) =
        (Except.ok ⟨u.id, c.topic_id⟩,
          St.mk db (res2 :: restSc)
            (gwt ++ [GwCall.copyMsg opGroup m.chat_id m.message_id (some c.topic_id)
              (build_reply_params db.links m.chat_id m.reply_to_message_id opGroup)]) [])) ∧
    ((m.content_type == "text" && message_has_links m) = true →
      ((copy_user_message_to_topic opGroup m
          (St.mk db (GwResult.forbidden :: res2 :: restSc) gwt [])).1 =
        Except.ok ⟨u.id, c.topic_id⟩ ∧
      ((copy_user_message_to_topic opGroup m
          (St.mk db (GwResult.forbidden :: res2 :: restSc) gwt [])).2).gwTrace =
        gwt ++ [GwCall.copyMsg opGroup m.chat_id m.message_id (some c.topic_id)
            (build_reply_params db.links m.chat_id m.reply_to_message_id opGroup),
          GwCall.sendMsg opGroup (some c.topic_id) (m.text.getD "")
            (build_reply_params db.links m.chat_id m.reply_to_message_id opGroup)])) := by
  constructor
  · intro hcond
    simp [copy_user_message_to_topic, ensure_topic, hfu, hconv, gwCall, hcond]
  · intro hcond
    cases res2 with
    | ok i =>
      constructor <;>
        simp [copy_user_message_to_topic, ensure_topic, hfu, hconv, gwCall, hcond,
          dbWrite, log_message_link, withTransaction]
    | forbidden =>
      constructor <;>
        simp [copy_user_message_to_topic, ensure_topic, hfu, hconv, gwCall, hcond]
    | badRequest z =>
      constructor <;>
        simp [copy_user_message_to_topic, ensure_topic, hfu, hconv, gwCall, hcond]

/-- Witness for C5: text containing `https://example.com` under `Forbidden`
triggers exactly one fallback plain-send attempt whose own `Forbidden`
is swallowed. -/
theorem c5_forbidden_fallback_witness :
    (copy_user_message_to_topic 999
        (Msg.mk 1 100 "text" (some "see https://example.com") [] none none
          (some (MsgUser.mk 7 false "Alice" none)))
        (St.mk (DB.mk [Conversation.mk 7 55 true] [] [])
          [GwResult.forbidden, GwResult.forbidden] [] [])).1 =
      Except.ok ⟨7, 55⟩ :=
  ((c5_forbidden_fallback 999
      (Msg.mk 1 100 "text" (some "see https://example.com") [] none none
        (some (MsgUser.mk 7 false "Alice" none)))
      (MsgUser.mk 7 false "Alice" none) (Conversation.mk 7 55 true)
      (DB.mk [Conversation.mk 7 55 true] [] []) [] GwResult.forbidden []
      rfl rfl).2 (by decide)).1

/-! ## C6: reply resolution is strictly additive -/

theorem ensure_topic_links (g : Int) (u : MsgUser) (s : St) :
    ((ensure_topic g u s).2).db.links = s.db.links := by
  rcases s with ⟨db, gws, gwt, dbs⟩
  cases hc : get_active_conversation db u.id
  · cases gws with
    | nil =>
      cases dbs with
      | nil => simp [ensure_topic, hc, gwCall, dbWrite]
      | cons b rest => cases b <;> simp [ensure_topic, hc, gwCall, dbWrite]
    | cons r gws' =>
      cases r with
      | ok t =>
        cases dbs with
        | nil =>
          cases gws' with
          | nil => simp [ensure_topic, hc, gwCall, dbWrite]
          | cons r2 rest2 => cases r2 <;> simp [ensure_topic, hc, gwCall, dbWrite]
        | cons b rest =>
          cases b with
          | false => simp [ensure_topic, hc, gwCall, dbWrite]
          | true =>
            cases gws' with
            | nil => simp [ensure_topic, hc, gwCall, dbWrite]
            | cons r2 rest2 => cases r2 <;> simp [ensure_topic, hc, gwCall, dbWrite]
      | forbidden => simp [ensure_topic, hc, gwCall]
      | badRequest z => simp [ensure_topic, hc, gwCall]
  · simp [ensure_topic, hc]

/-- C6: when no MessageLink resolves the replied-to message, the relay
behaves exactly as if the message replied to nothing — `build_reply_params`
returns `none` (a normal, non-error result), the copy is sent with no
reply target, and the relay's entire outcome is unchanged, in both
directions. -/
theorem c6_reply_resolution_additive (opGroup : Int) (m : Msg) (b : Bool) (s : St)
    (rid : Int)
    (hrid : m.reply_to_message_id = some rid)
    (hfind : ∀ tc, find_linked_message_id s.db.links m.chat_id rid tc = none) :
    (∀ tc, build_reply_params s.db.links m.chat_id m.reply_to_message_id tc = none) ∧
    copy_user_message_to_topic opGroup m s =
      copy_user_message_to_topic opGroup { m with reply_to_message_id := none } s ∧
    topic_message_to_user m b s =
      topic_message_to_user { m with reply_to_message_id := none } b s := by
  refine ⟨fun tc => by simp [build_reply_params, hrid, hfind], ?_, ?_⟩
  · simp only [copy_user_message_to_topic]
    cases hfu' : m.from_user with
    | none => rfl
    | some u =>
      rcases he : ensure_topic opGroup u s with ⟨res, s1⟩
      have hl := ensure_topic_links opGroup u s
      rw [he] at hl
      simp only [he]
      cases res with
      | error e => rfl
      | ok topic =>
        have hl' : s1.db.links = s.db.links := hl
        simp [build_reply_params, hrid, hl', hfind, message_has_links, copy_failed_text]
  · simp only [topic_message_to_user]
    cases hfu' : m.from_user with
    | none => rfl
    | some u =>
      cases hb : u.is_bot with
      | true => simp [hb]
      | false =>
        simp only [hb, Bool.false_eq_true, if_false]
        cases htid : m.message_thread_id with
        | none => rfl
        | some tid =>
          cases hfind2 : find_user_id_by_topic s.db tid with
          | none => simp [hfind2]
          | some uid => simp [hfind2, build_reply_params, hrid, hfind]

/-- Witness for C6: with an empty link table, relaying a reply to message 9
equals relaying the same message with no reply context. -/
theorem c6_reply_resolution_additive_witness :
    copy_user_message_to_topic 999
        (Msg.mk 2 100 "text" (some "hi") [] (some 9) none
          (some (MsgUser.mk 7 false "Alice" none)))
        (St.mk (DB.mk [Conversation.mk 7 55 true] [] []) [GwResult.ok 501] [] []) =
      copy_user_message_to_topic 999
        (Msg.mk 2 100 "text" (some "hi") [] none none
          (some (MsgUser.mk 7 false "Alice" none)))
        (St.mk (DB.mk [Conversation.mk 7 55 true] [] []) [GwResult.ok 501] [] []) :=
  (c6_reply_resolution_additive 999
      (Msg.mk 2 100 "text" (some "hi") [] (some 9) none
        (some (MsgUser.mk 7 false "Alice" none)))
      false
      (St.mk (DB.mk [Conversation.mk 7 55 true] [] []) [GwResult.ok 501] [] [])
      9 rfl (fun _ => rfl)).2.1

/-! ## C8: non-thread-missing BadRequest handling and the propagation policy -/

/-- Counterexample for C8 as stated: in the operator→user relay
(`topic_message_to_user`), a copy failing with a non-thread-missing
`BadRequest` triggers the failure notice (`message.reply`), but a failure
of that notice itself is NOT swallowed — here the notice fails with
`Forbidden` and the handler raises, contradicting "a failure of that
notice itself is swallowed, and the relay returns without raising". -/
theorem c8_counterexample :
    (topic_message_to_user
        (Msg.mk 5 999 "text" (some "x") [] none (some 55)
          (some (MsgUser.mk 10 false "Op" none)))
        true
        (St.mk (DB.mk [Conversation.mk 7 55 true] [] [])
          [GwResult.badRequest "oops", GwResult.forbidden] [] [])).1 =
      Except.error Err.forbidden := rfl

/-- C8 amended: in the user→operator relay, a copy failing with a
non-thread-missing `BadRequest` triggers exactly one best-effort failure
notice into the topic, any outcome of that notice is swallowed, and the
relay returns the topic without raising; moreover, whenever the
user→operator relay does surface an error, it is a Store failure or the
first copy failed with a thread-missing `BadRequest` (the stale-topic
recovery path).  (In the operator→user relay the notice is attempted once
but its own failure propagates — see the counterexample.) -/
theorem c8_notice_swallowed_propagation (opGroup : Int) (m : Msg) (u : MsgUser)
    (c : Conversation) (db : DB) (gwt : List GwCall)
    (hfu : m.from_user = some u)
    (hconv : get_active_conversation db u.id = some c) :
    (∀ r res2 restSc, is_thread_missing r = false →
      (copy_user_message_to_topic opGroup m
          (St.mk db (GwResult.badRequest r :: res2 :: restSc) gwt [])).1 =
        Except.ok ⟨u.id, c.topic_id⟩ ∧
      ((copy_user_message_to_topic opGroup m
          (St.mk db (GwResult.badRequest r :: res2 :: restSc) gwt [])).2).gwTrace =
        gwt ++ [GwCall.copyMsg opGroup m.chat_id m.message_id (some c.topic_id)
            (build_reply_params db.links m.chat_id m.reply_to_message_id opGroup),
          GwCall.sendMsg opGroup (some c.topic_id) (copy_failed_text m r) none]) ∧
    (∀ gws dbs e,
      (copy_user_message_to_topic opGroup m (St.mk db gws gwt dbs)).1 = Except.error e →
      e = Err.storeFailure ∨
        ∃ r rest, gws = GwResult.badRequest r :: rest ∧ is_thread_missing r = true) := by
  constructor
  · intro r res2 restSc hr
    cases res2 <;> constructor <;>
      simp [copy_user_message_to_topic, ensure_topic, hfu, hconv, gwCall, hr]
  · intro gws dbs e h
    rcases gws with _ | ⟨r1, gws'⟩
    · left
      rcases dbs with _ | ⟨b1, dbs'⟩
      · simp [copy_user_message_to_topic, ensure_topic, hfu, hconv, gwCall, dbWrite,
          log_message_link, withTransaction] at h
      · cases b1
        · simp [copy_user_message_to_topic, ensure_topic, hfu, hconv, gwCall, dbWrite,
            log_message_link, withTransaction] at h
          exact h.symm
        · rcases dbs' with _ | ⟨b2, dbs''⟩
          · simp [copy_user_message_to_topic, ensure_topic, hfu, hconv, gwCall, dbWrite,
              log_message_link, withTransaction] at h
          · cases b2 <;>
              simp [copy_user_message_to_topic, ensure_topic, hfu, hconv, gwCall, dbWrite,
                log_message_link, withTransaction] at h
            exact h.symm
    · cases r1 with
      | ok i =>
        left
        rcases dbs with _ | ⟨b1, dbs'⟩
        · simp [copy_user_message_to_topic, ensure_topic, hfu, hconv, gwCall, dbWrite,
            log_message_link, withTransaction] at h
        · cases b1
          · simp [copy_user_message_to_topic, ensure_topic, hfu, hconv, gwCall, dbWrite,
              log_message_link, withTransaction] at h
            exact h.symm
          · rcases dbs' with _ | ⟨b2, dbs''⟩
            · simp [copy_user_message_to_topic, ensure_topic, hfu, hconv, gwCall, dbWrite,
                log_message_link, withTransaction] at h
            · cases b2 <;>
                simp [copy_user_message_to_topic, ensure_topic, hfu, hconv, gwCall, dbWrite,
                  log_message_link, withTransaction] at h
              exact h.symm
      | forbidden =>
        left
        by_cases hcond : (m.content_type == "text" && message_has_links m) = true
        · rcases gws' with _ | ⟨r2, gws''⟩
          · rcases dbs with _ | ⟨b1, dbs'⟩
            · simp [copy_user_message_to_topic, ensure_topic, hfu, hconv, gwCall, dbWrite,
                log_message_link, withTransaction, hcond] at h
            · cases b1
              · simp [copy_user_message_to_topic, ensure_topic, hfu, hconv, gwCall, dbWrite,
                  log_message_link, withTransaction, hcond] at h
                exact h.symm
              · rcases dbs' with _ | ⟨b2, dbs''⟩
                · simp [copy_user_message_to_topic, ensure_topic, hfu, hconv, gwCall, dbWrite,
                    log_message_link, withTransaction, hcond] at h
                · cases b2 <;>
                    simp [copy_user_message_to_topic, ensure_topic, hfu, hconv, gwCall,
                      dbWrite, log_message_link, withTransaction, hcond] at h
                  exact h.symm
          · cases r2 with
            | ok j =>
              rcases dbs with _ | ⟨b1, dbs'⟩
              · simp [copy_user_message_to_topic, ensure_topic, hfu, hconv, gwCall, dbWrite,
                  log_message_link, withTransaction, hcond] at h
              · cases b1
                · simp [copy_user_message_to_topic, ensure_topic, hfu, hconv, gwCall,
                    dbWrite, log_message_link, withTransaction, hcond] at h
                  exact h.symm
                · rcases dbs' with _ | ⟨b2, dbs''⟩
                  · simp [copy_user_message_to_topic, ensure_topic, hfu, hconv, gwCall,
                      dbWrite, log_message_link, withTransaction, hcond] at h
                  · cases b2 <;>
                      simp [copy_user_message_to_topic, ensure_topic, hfu, hconv, gwCall,
                        dbWrite, log_message_link, withTransaction, hcond] at h
                    exact h.symm
            | forbidden =>
              simp [copy_user_message_to_topic, ensure_topic, hfu, hconv, gwCall,
                hcond] at h
            | badRequest z =>
              simp [copy_user_message_to_topic, ensure_topic, hfu, hconv, gwCall,
                hcond] at h
        · simp only [Bool.not_eq_true] at hcond
          simp [copy_user_message_to_topic, ensure_topic, hfu, hconv, gwCall, hcond] at h
      | badRequest z =>
        by_cases hz : is_thread_missing z = true
        · exact Or.inr ⟨z, gws', rfl, hz⟩
        · left
          simp only [Bool.not_eq_true] at hz
          rcases gws' with _ | ⟨r2, gws''⟩
          · simp [copy_user_message_to_topic, ensure_topic, hfu, hconv, gwCall, hz] at h
          · cases r2 <;>
              simp [copy_user_message_to_topic, ensure_topic, hfu, hconv, gwCall, hz] at h

/-- Witness for C8's amended theorem: concrete non-thread-missing
`BadRequest` whose failure notice itself fails, yet the relay returns
the topic. -/
theorem c8_notice_swallowed_propagation_witness :
    (copy_user_message_to_topic 999
        (Msg.mk 1 100 "text" (some "hi") [] none none
          (some (MsgUser.mk 7 false "Alice" none)))
        (St.mk (DB.mk [Conversation.mk 7 55 true] [] [])
          [GwResult.badRequest "oops", GwResult.forbidden] [] [])).1 =
      Except.ok ⟨7, 55⟩ :=
  ((c8_notice_swallowed_propagation 999
      (Msg.mk 1 100 "text" (some "hi") [] none none
        (some (MsgUser.mk 7 false "Alice" none)))
      (MsgUser.mk 7 false "Alice" none) (Conversation.mk 7 55 true)
      (DB.mk [Conversation.mk 7 55 true] [] []) [] rfl rfl).1 "oops"
    GwResult.forbidden [] (by decide)).1

/-! ## C9: Conversation-table invariants -/

/-- The spec's data-model invariant: at most one row — hence at most one
active Conversation — per user, and no two active rows share a topic id. -/
def conv_inv (rows : List Conversation) : Prop :=
  (rows.map (fun c => c.user_id)).Nodup ∧
  ∀ c1 ∈ rows, ∀ c2 ∈ rows, c1.active = true → c2.active = true →
    c1.topic_id = c2.topic_id → c1 = c2

instance conv_inv_decidable (rows : List Conversation) : Decidable (conv_inv rows) := by
  unfold conv_inv
  infer_instance

/-- Counterexample for C9 as stated: the Store itself does not enforce
topic-id uniqueness (the schema's `idx_conversations_topic_id` is not
UNIQUE), so the sequence `set_conversation(1, 100); set_conversation(2,
100)` produces two active Conversations sharing topic 100 — not every
sequence of store operations preserves the invariant. -/
theorem c9_counterexample :
    conv_inv [Conversation.mk 1 100 true] ∧
    set_conversation_rows [Conversation.mk 1 100 true] 2 100 true =
      [Conversation.mk 1 100 true, Conversation.mk 2 100 true] ∧
    ¬ conv_inv [Conversation.mk 1 100 true, Conversation.mk 2 100 true] := by
  refine ⟨by decide, by decide, by decide⟩

theorem deactivate_rows_keys (rows : List Conversation) (uid : Int) :
    (deactivate_rows rows uid).map (fun c => c.user_id) =
      rows.map (fun c => c.user_id) := by
  unfold deactivate_rows
  rw [List.map_map]
  refine List.map_congr_left fun c _ => ?_
  by_cases hc : c.user_id = uid <;> simp [Function.comp, hc]

theorem set_conversation_rows_keys (rows : List Conversation) (uid tid : Int) (a : Bool)
    (h : rows.any (fun c => c.user_id == uid) = true) :
    (set_conversation_rows rows uid tid a).map (fun c => c.user_id) =
      rows.map (fun c => c.user_id) := by
  unfold set_conversation_rows
  rw [if_pos h, List.map_map]
  refine List.map_congr_left fun c _ => ?_
  by_cases hc : c.user_id = uid <;> simp [Function.comp, hc]

/-- C9 amended: `deactivate_conversation` always preserves the invariant;
`set_conversation` always preserves one-row-per-user (the user id is the
primary key), and preserves active-topic-id uniqueness provided the topic
id it writes is not held by another user's active Conversation — which is
how `ensure_topic` calls it, with a freshly created topic.  Arbitrary
`set_conversation` sequences can violate topic-uniqueness (see the
counterexample). -/
theorem c9_conversation_invariants (rows : List Conversation) (uid tid : Int) (a : Bool)
    (hinv : conv_inv rows) :
    conv_inv (deactivate_rows rows uid) ∧
    ((set_conversation_rows rows uid tid a).map (fun c => c.user_id)).Nodup ∧
    ((∀ c ∈ rows, c.active = true → c.topic_id = tid → c.user_id = uid) →
      conv_inv (set_conversation_rows rows uid tid a)) := by
  obtain ⟨hnd, huniq⟩ := hinv
  refine ⟨⟨?_, ?_⟩, ?_, fun hfresh => ?_⟩
  · rw [deactivate_rows_keys]
    exact hnd
  · intro c1' h1 c2' h2 ha1 ha2 htopic
    obtain ⟨c1, hc1, rfl⟩ := List.mem_map.mp h1
    obtain ⟨c2, hc2, rfl⟩ := List.mem_map.mp h2
    by_cases k1 : c1.user_id = uid
    · simp [k1] at ha1
    · by_cases k2 : c2.user_id = uid
      · simp [k2] at ha2
      · simp only [show (c1.user_id == uid) = false by simp [k1], Bool.false_eq_true,
          if_false] at ha1 htopic ⊢
        simp only [show (c2.user_id == uid) = false by simp [k2], Bool.false_eq_true,
          if_false] at ha2 htopic ⊢
        exact huniq c1 hc1 c2 hc2 ha1 ha2 htopic
  · by_cases hany : rows.any (fun c => c.user_id == uid) = true
    · rw [set_conversation_rows_keys rows uid tid a hany]
      exact hnd
    · simp only [Bool.not_eq_true] at hany
      unfold set_conversation_rows
      rw [if_neg (by simp [hany])]
      rw [List.map_append, List.nodup_append]
      refine ⟨hnd, by simp, ?_⟩
      intro x hx
      obtain ⟨c, hc, rfl⟩ := List.mem_map.mp hx
      have := (List.any_eq_false.mp hany) c hc
      simp only [List.map_cons, List.map_nil, List.mem_singleton]
      intro hx'
      exact this (by simp [hx'])
  · constructor
    · by_cases hany : rows.any (fun c => c.user_id == uid) = true
      · rw [set_conversation_rows_keys rows uid tid a hany]
        exact hnd
      · simp only [Bool.not_eq_true] at hany
        unfold set_conversation_rows
        rw [if_neg (by simp [hany])]
        rw [List.map_append, List.nodup_append]
        refine ⟨hnd, by simp, ?_⟩
        intro x hx
        obtain ⟨c, hc, rfl⟩ := List.mem_map.mp hx
        have := (List.any_eq_false.mp hany) c hc
        simp only [List.map_cons, List.map_nil, List.mem_singleton]
        intro hx'
        exact this (by simp [hx'])
    · intro c1' h1 c2' h2 ha1 ha2 htopic
      unfold set_conversation_rows at h1 h2
      by_cases hany : rows.any (fun c => c.user_id == uid) = true
      · rw [if_pos hany] at h1 h2
        obtain ⟨c1, hc1, rfl⟩ := List.mem_map.mp h1
        obtain ⟨c2, hc2, rfl⟩ := List.mem_map.mp h2
        by_cases k1 : c1.user_id = uid <;> by_cases k2 : c2.user_id = uid
        · simp [k1, k2]
        · simp only [show (c1.user_id == uid) = true by simp [k1], if_true] at ha1 htopic ⊢
          simp only [show (c2.user_id == uid) = false by simp [k2], Bool.false_eq_true,
            if_false] at ha2 htopic ⊢
          exact absurd (hfresh c2 hc2 ha2 htopic.symm) k2
        · simp only [show (c1.user_id == uid) = false by simp [k1], Bool.false_eq_true,
            if_false] at ha1 htopic ⊢
          simp only [show (c2.user_id == uid) = true by simp [k2], if_true] at ha2 htopic ⊢
          exact absurd (hfresh c1 hc1 ha1 htopic) k1
        · simp only [show (c1.user_id == uid) = false by simp [k1], Bool.false_eq_true,
            if_false] at ha1 htopic ⊢
          simp only [show (c2.user_id == uid) = false by simp [k2], Bool.false_eq_true,
            if_false] at ha2 htopic ⊢
          exact huniq c1 hc1 c2 hc2 ha1 ha2 htopic
      · simp only [Bool.not_eq_true] at hany
        rw [if_neg (by simp [hany])] at h1 h2
        rcases List.mem_append.mp h1 with hc1 | hc1 <;>
          rcases List.mem_append.mp h2 with hc2 | hc2
        · exact huniq c1' hc1 c2' hc2 ha1 ha2 htopic
        · have hc2' : c2' = Conversation.mk uid tid a := List.mem_singleton.mp hc2
          subst hc2'
          have := hfresh c1' hc1 ha1 (by simpa using htopic)
          have hne := (List.any_eq_false.mp hany) c1' hc1
          simp [this] at hne
        · have hc1' : c1' = Conversation.mk uid tid a := List.mem_singleton.mp hc1
          subst hc1'
          have := hfresh c2' hc2 ha2 (by simpa using htopic.symm)
          have hne := (List.any_eq_false.mp hany) c2' hc2
          simp [this] at hne
        · rw [List.mem_singleton.mp hc1, List.mem_singleton.mp hc2]

/-- Witness for C9's amended theorem: deactivation preserves the invariant
on a concrete table. -/
theorem c9_conversation_invariants_witness :
    conv_inv (deactivate_rows [Conversation.mk 1 100 true, Conversation.mk 2 200 true] 1) :=
  (c9_conversation_invariants [Conversation.mk 1 100 true, Conversation.mk 2 200 true]
      1 300 true (by decide)).1

/-! ## C10: operator-handler guard clauses are effect-free -/

/-- C10: a message in the operator workspace whose sender is absent or a
bot, or that carries no thread id, or whose thread id maps to no active
Conversation, makes `topic_message_to_user` return with the world state
unchanged — no Gateway call, nothing written to the Store.  In
particular a topic all of whose Conversation rows are deactivated maps to
no user (`find_user_id_by_topic` demands the active flag), so messages
in a deactivated topic are silently dropped. -/
theorem c10_operator_guards_no_effect (m : Msg) (b : Bool) (s : St)
    (h : m.from_user = none ∨
      (∃ u, m.from_user = some u ∧ u.is_bot = true) ∨
      m.message_thread_id = none ∨
      (∃ tid, m.message_thread_id = some tid ∧ find_user_id_by_topic s.db tid = none)) :
    topic_message_to_user m b s = (Except.ok (), s) ∧
    (∀ tid, (∀ c ∈ s.db.conversations, c.topic_id = tid → c.active = false) →
      find_user_id_by_topic s.db tid = none) := by
  constructor
  · rcases h with hfu | ⟨u, hfu, hbot⟩ | htid | ⟨tid, htid, hfind⟩
    · simp [topic_message_to_user, hfu]
    · simp [topic_message_to_user, hfu, hbot]
    · cases hfu : m.from_user with
      | none => simp [topic_message_to_user, hfu]
      | some u =>
        cases hb : u.is_bot <;> simp [topic_message_to_user, hfu, hb, htid]
    · cases hfu : m.from_user with
      | none => simp [topic_message_to_user, hfu]
      | some u =>
        cases hb : u.is_bot <;> simp [topic_message_to_user, hfu, hb, htid, hfind]
  · intro tid hall
    unfold find_user_id_by_topic
    rw [List.find?_eq_none.mpr]
    · rfl
    · intro c hc
      by_cases ht : c.topic_id = tid
      · simp [hall c hc ht]
      · simp [ht]

/-- Witness for C10: a message in deactivated topic 55 is dropped with no
state change. -/
theorem c10_operator_guards_no_effect_witness :
    topic_message_to_user
        (Msg.mk 5 999 "text" (some "x") [] none (some 55)
          (some (MsgUser.mk 10 false "Op" none)))
        true
        (St.mk (DB.mk [Conversation.mk 7 55 false] [] []) [] [] []) =
      (Except.ok (), St.mk (DB.mk [Conversation.mk 7 55 false] [] []) [] [] []) :=
  (c10_operator_guards_no_effect
      (Msg.mk 5 999 "text" (some "x") [] none (some 55)
        (some (MsgUser.mk 10 false "Op" none)))
      true
      (St.mk (DB.mk [Conversation.mk 7 55 false] [] []) [] [] [])
      (Or.inr (Or.inr (Or.inr ⟨55, rfl, rfl⟩)))).1

/-! ## C7: concurrent `ensure_topic` under the per-user keyed lock

Interleaving model of N tasks all running `ensure_topic` for the same,
previously-unseen user.  Tasks suspend at every Gateway and Store call
(section 5 of the spec: cooperative scheduling, interleaving only at
suspension points), so one task is one sequence of atomic steps:

* `ready`: before `async with lock` (topic_manager.py lines 62–63);
  stepping acquires the per-user lock, blocking while another task holds it;
* `hasLock`: about to `get_active_conversation` (line 64); stepping either
  finds the active Conversation and finishes with its topic, or calls the
  Gateway's `create_forum_topic` (line 68) — one topic-creation call,
  returning a fresh topic id;
* `created t`: about to `set_conversation` (line 72); stepping commits the
  active Conversation row for topic `t`;
* `wroteRow t`: about to post the introductory notice (line 75); stepping
  completes it, returns the `TopicRef` and releases the lock;
* `finished t`: returned with topic id `t`.

The store holds the single user's Conversation slot (`conv`); `creates`
counts topic-creation Gateway calls; `nextTopic` makes the Gateway return
fresh ids.  A schedule is an arbitrary list of task indices; stepping a
blocked or finished task is a no-op. -/

inductive TaskPc where
  | ready
  | hasLock
  | created (t : Int)
  | wroteRow (t : Int)
  | finished (t : Int)
deriving DecidableEq, Repr

structure EnsureSys where
  tasks : List TaskPc
  lockHolder : Option Nat
  conv : Option (Int × Bool)
  creates : Nat
  nextTopic : Int
deriving DecidableEq, Repr

/-- One atomic step of task `i`; `none` when `i` is out of range, blocked
on the lock, or already finished. -/
def ensureStep (i : Nat) (sys : EnsureSys) : Option EnsureSys :=
  match sys.tasks[i]? with
  | none => none
  | some TaskPc.ready =>
    match sys.lockHolder with
    | some _ => none
    | none =>
      some { sys with tasks := sys.tasks.set i TaskPc.hasLock, lockHolder := some i }
  | some TaskPc.hasLock =>
    match sys.conv with
    | some (t, true) =>
      some { sys with tasks := sys.tasks.set i (TaskPc.finished t), lockHolder := none }
    | _ =>
      some { sys with
              tasks := sys.tasks.set i (TaskPc.created sys.nextTopic),
              creates := sys.creates + 1,
              nextTopic := sys.nextTopic + 1 }
  | some (TaskPc.created t) =>
    some { sys with tasks := sys.tasks.set i (TaskPc.wroteRow t), conv := some (t, true) }
  | some (TaskPc.wroteRow t) =>
    some { sys with tasks := sys.tasks.set i (TaskPc.finished t), lockHolder := none }
  | some (TaskPc.finished _) => none

/-- Run a schedule; a disabled step leaves the system unchanged. -/
def runSched : List Nat → EnsureSys → EnsureSys
  | [], sys => sys
  | i :: rest, sys => runSched rest ((ensureStep i sys).getD sys)

/-- N tasks about to call `ensure_topic` for one previously-unseen user. -/
def initSys (n : Nat) (t0 : Int) : EnsureSys :=
  EnsureSys.mk (List.replicate n TaskPc.ready) none none 0 t0

def isCreatedB : TaskPc → Bool
  | TaskPc.created _ => true
  | _ => false

def isFinishedB : TaskPc → Bool
  | TaskPc.finished _ => true
  | _ => false

def hasCreated (tasks : List TaskPc) : Bool := tasks.any isCreatedB

/-- Outside the critical section. -/
def isQuiet (pc : TaskPc) : Prop := pc = TaskPc.ready ∨ ∃ t, pc = TaskPc.finished t

/-- Inside the critical section (holding the per-user lock). -/
def isMid (pc : TaskPc) : Prop :=
  pc = TaskPc.hasLock ∨ ∃ t, pc = TaskPc.created t ∨ pc = TaskPc.wroteRow t

/-- Mutual exclusion: the lock holder is the only task inside the critical
section. -/
def lockInv (sys : EnsureSys) : Prop :=
  match sys.lockHolder with
  | none => ∀ (j : Nat) (pc : TaskPc), sys.tasks[j]? = some pc → isQuiet pc
  | some i => (∃ pc, sys.tasks[i]? = some pc ∧ isMid pc) ∧
      ∀ (j : Nat) (pc : TaskPc), j ≠ i → sys.tasks[j]? = some pc → isQuiet pc

/-- Phase invariant tying the store to the tasks: before the Conversation
row exists nobody has passed the row write and `creates` counts the sole
in-flight creation; once the row exists (topic `t`), `creates` is one and
every task past the store read carries `t`. -/
def phaseInv (sys : EnsureSys) : Prop :=
  match sys.conv with
  | none =>
      (∀ (j : Nat) (pc : TaskPc), sys.tasks[j]? = some pc →
        pc = TaskPc.ready ∨ pc = TaskPc.hasLock ∨ ∃ t, pc = TaskPc.created t) ∧
      sys.creates = (if hasCreated sys.tasks then 1 else 0)
  | some (t, true) =>
      sys.creates = 1 ∧
      ∀ (j : Nat) (pc : TaskPc), sys.tasks[j]? = some pc →
        pc = TaskPc.ready ∨ pc = TaskPc.hasLock ∨ pc = TaskPc.wroteRow t ∨
          pc = TaskPc.finished t
  | some (_, false) => False

def sysInv (sys : EnsureSys) : Prop := lockInv sys ∧ phaseInv sys

theorem getElem?_some_lt {α : Type} (l : List α) (i : Nat) (x : α)
    (h : l[i]? = some x) : i < l.length := by
  by_contra hc
  rw [List.getElem?_eq_none (Nat.le_of_not_lt hc)] at h
  cases h

theorem not_quiet_of_mid (pc : TaskPc) (h : isMid pc) : ¬ isQuiet pc := by
  cases pc <;> simp [isMid, isQuiet] at h ⊢

theorem lockHolder_of_mid (sys : EnsureSys) (i : Nat) (pc : TaskPc)
    (hget : sys.tasks[i]? = some pc) (hmid : isMid pc) (hlock : lockInv sys) :
    sys.lockHolder = some i := by
  unfold lockInv at hlock
  cases hh : sys.lockHolder with
  | none =>
    rw [hh] at hlock
    exact absurd (hlock i pc hget) (not_quiet_of_mid pc hmid)
  | some k =>
    rw [hh] at hlock
    by_cases hk : i = k
    · rw [hk]
    · exact absurd (hlock.2 i pc hk hget) (not_quiet_of_mid pc hmid)

theorem hasCreated_set (l : List TaskPc) (i : Nat) (x y : TaskPc)
    (hget : l[i]? = some x) (hx : isCreatedB x = false) (hy : isCreatedB y = false) :
    hasCreated (l.set i y) = hasCreated l := by
  induction l generalizing i with
  | nil => rfl
  | cons a l' ih =>
    cases i with
    | zero =>
      simp only [List.getElem?_cons_zero, Option.some.injEq] at hget
      subst hget
      simp [hasCreated, List.set, List.any_cons, hx, hy]
    | succ i' =>
      simp only [List.getElem?_cons_succ] at hget
      simp only [hasCreated, List.set, List.any_cons] at ih ⊢
      rw [ih i' hget]

/-- Every reachable step preserves the mutual-exclusion and phase
invariants. -/
theorem ensureStep_inv (i : Nat) (sys sys' : EnsureSys)
    (hstep : ensureStep i sys = some sys') (hinv : sysInv sys) : sysInv sys' := by
  obtain ⟨hlock, hphase⟩ := hinv
  unfold ensureStep at hstep
  cases hget : sys.tasks[i]? with
  | none => rw [hget] at hstep; cases hstep
  | some pc =>
    rw [hget] at hstep
    have hlen : i < sys.tasks.length := getElem?_some_lt _ _ _ hget
    cases pc with
    | ready =>
      cases hh : sys.lockHolder with
      | some k => rw [hh] at hstep; cases hstep
      | none =>
        rw [hh] at hstep
        injection hstep with hstep
        subst hstep
        have hq : ∀ (j : Nat) (pc : TaskPc), sys.tasks[j]? = some pc → isQuiet pc := by
          unfold lockInv at hlock
          rw [hh] at hlock
          exact hlock
        constructor
        · simp only [lockInv]
          refine ⟨⟨TaskPc.hasLock, List.getElem?_set_eq_of_lt _ hlen, Or.inl rfl⟩, ?_⟩
          intro j pc hji hjget
          rw [List.getElem?_set_ne (fun he => hji he.symm)] at hjget
          exact hq j pc hjget
        · cases hconv : sys.conv with
          | none =>
            unfold phaseInv at hphase
            rw [hconv] at hphase
            obtain ⟨hall, hcnt⟩ := hphase
            simp only [phaseInv, hconv]
            refine ⟨?_, ?_⟩
            · intro j pc hjget
              by_cases hji : j = i
              · subst hji
                rw [List.getElem?_set_eq_of_lt _ hlen] at hjget
                injection hjget with h2
                subst h2
                exact Or.inr (Or.inl rfl)
              · rw [List.getElem?_set_ne (fun he => hji he.symm)] at hjget
                exact hall j pc hjget
            · rw [hasCreated_set sys.tasks i TaskPc.ready TaskPc.hasLock hget rfl rfl]
              exact hcnt
          | some pr =>
            rcases pr with ⟨t, b⟩
            cases b with
            | false =>
              unfold phaseInv at hphase
              rw [hconv] at hphase
              exact hphase.elim
            | true =>
              unfold phaseInv at hphase
              rw [hconv] at hphase
              obtain ⟨hc1, hall⟩ := hphase
              simp only [phaseInv, hconv]
              refine ⟨hc1, ?_⟩
              intro j pc hjget
              by_cases hji : j = i
              · subst hji
                rw [List.getElem?_set_eq_of_lt _ hlen] at hjget
                injection hjget with h2
                subst h2
                exact Or.inr (Or.inl rfl)
              · rw [List.getElem?_set_ne (fun he => hji he.symm)] at hjget
                exact hall j pc hjget
    | hasLock =>
      have hh : sys.lockHolder = some i :=
        lockHolder_of_mid sys i TaskPc.hasLock hget (Or.inl rfl) hlock
      have hothers : ∀ (j : Nat) (pc : TaskPc), j ≠ i → sys.tasks[j]? = some pc →
          isQuiet pc := by
        unfold lockInv at hlock
        rw [hh] at hlock
        exact hlock.2
      cases hconv : sys.conv with
      | some pr =>
        rcases pr with ⟨t, b⟩
        cases b with
        | false =>
          unfold phaseInv at hphase
          rw [hconv] at hphase
          exact hphase.elim
        | true =>
          rw [hconv] at hstep
          injection hstep with hstep
          subst hstep
          unfold phaseInv at hphase
          rw [hconv] at hphase
          obtain ⟨hc1, hall⟩ := hphase
          constructor
          · simp only [lockInv]
            intro j pc hjget
            by_cases hji : j = i
            · subst hji
              rw [List.getElem?_set_eq_of_lt _ hlen] at hjget
              injection hjget with h2
              subst h2
              exact Or.inr ⟨t, rfl⟩
            · rw [List.getElem?_set_ne (fun he => hji he.symm)] at hjget
              exact hothers j pc hji hjget
          · simp only [phaseInv, hconv]
            refine ⟨hc1, ?_⟩
            intro j pc hjget
            by_cases hji : j = i
            · subst hji
              rw [List.getElem?_set_eq_of_lt _ hlen] at hjget
              injection hjget with h2
              subst h2
              exact Or.inr (Or.inr (Or.inr rfl))
            · rw [List.getElem?_set_ne (fun he => hji he.symm)] at hjget
              exact hall j pc hjget
      | none =>
        rw [hconv] at hstep
        injection hstep with hstep
        subst hstep
        unfold phaseInv at hphase
        rw [hconv] at hphase
        obtain ⟨hall, hcnt⟩ := hphase
        have hnc : hasCreated sys.tasks = false := by
          by_contra h'
          rw [Bool.not_eq_false] at h'
          obtain ⟨x, hx, hpx⟩ := List.any_eq_true.mp h'
          obtain ⟨j, hjlt, hje⟩ := List.mem_iff_getElem.mp hx
          have hjget : sys.tasks[j]? = some x := by
            rw [List.getElem?_eq_getElem hjlt, hje]
          by_cases hji : j = i
          · subst hji
            rw [hget] at hjget
            injection hjget with h2
            subst h2
            simp [isCreatedB] at hpx
          · have hq := hothers j x hji hjget
            cases x <;> simp [isCreatedB, isQuiet] at hpx hq
        rw [hnc] at hcnt
        simp only [if_false, Bool.false_eq_true] at hcnt
        constructor
        · simp only [lockInv, hh]
          refine ⟨⟨TaskPc.created sys.nextTopic, List.getElem?_set_eq_of_lt _ hlen,
            Or.inr ⟨sys.nextTopic, Or.inl rfl⟩⟩, ?_⟩
          intro j pc hji hjget
          rw [List.getElem?_set_ne (fun he => hji he.symm)] at hjget
          exact hothers j pc hji hjget
        · simp only [phaseInv, hconv]
          refine ⟨?_, ?_⟩
          · intro j pc hjget
            by_cases hji : j = i
            · subst hji
              rw [List.getElem?_set_eq_of_lt _ hlen] at hjget
              injection hjget with h2
              subst h2
              exact Or.inr (Or.inr ⟨sys.nextTopic, rfl⟩)
            · rw [List.getElem?_set_ne (fun he => hji he.symm)] at hjget
              exact hall j pc hjget
          · have hc : hasCreated (sys.tasks.set i (TaskPc.created sys.nextTopic)) = true :=
              List.any_of_mem (List.getElem?_mem (List.getElem?_set_eq_of_lt _ hlen)) rfl
            rw [hc, hcnt]
            simp
    | created t =>
      have hh : sys.lockHolder = some i :=
        lockHolder_of_mid sys i (TaskPc.created t) hget (Or.inr ⟨t, Or.inl rfl⟩) hlock
      have hothers : ∀ (j : Nat) (pc : TaskPc), j ≠ i → sys.tasks[j]? = some pc →
          isQuiet pc := by
        unfold lockInv at hlock
        rw [hh] at hlock
        exact hlock.2
      injection hstep with hstep
      subst hstep
      cases hconv : sys.conv with
      | some pr =>
        rcases pr with ⟨t', b⟩
        cases b with
        | false =>
          unfold phaseInv at hphase
          rw [hconv] at hphase
          exact hphase.elim
        | true =>
          unfold phaseInv at hphase
          rw [hconv] at hphase
          have := hphase.2 i (TaskPc.created t) hget
          simp at this
      | none =>
        unfold phaseInv at hphase
        rw [hconv] at hphase
        obtain ⟨hall, hcnt⟩ := hphase
        have hc : hasCreated sys.tasks = true :=
          List.any_of_mem (List.getElem?_mem hget) rfl
        rw [hc] at hcnt
        simp only [if_true] at hcnt
        constructor
        · simp only [lockInv, hh]
          refine ⟨⟨TaskPc.wroteRow t, List.getElem?_set_eq_of_lt _ hlen,
            Or.inr ⟨t, Or.inr rfl⟩⟩, ?_⟩
          intro j pc hji hjget
          rw [List.getElem?_set_ne (fun he => hji he.symm)] at hjget
          exact hothers j pc hji hjget
        · simp only [phaseInv]
          refine ⟨hcnt, ?_⟩
          intro j pc hjget
          by_cases hji : j = i
          · subst hji
            rw [List.getElem?_set_eq_of_lt _ hlen] at hjget
            injection hjget with h2
            subst h2
            exact Or.inr (Or.inr (Or.inl rfl))
          · rw [List.getElem?_set_ne (fun he => hji he.symm)] at hjget
            have hq := hothers j pc hji hjget
            have ha := hall j pc hjget
            rcases hq with hq | ⟨t'', hq⟩
            · exact Or.inl hq
            · subst hq
              rcases ha with ha | ha | ⟨t3, ha⟩ <;> cases ha
    | wroteRow t =>
      have hh : sys.lockHolder = some i :=
        lockHolder_of_mid sys i (TaskPc.wroteRow t) hget (Or.inr ⟨t, Or.inr rfl⟩) hlock
      have hothers : ∀ (j : Nat) (pc : TaskPc), j ≠ i → sys.tasks[j]? = some pc →
          isQuiet pc := by
        unfold lockInv at hlock
        rw [hh] at hlock
        exact hlock.2
      injection hstep with hstep
      subst hstep
      cases hconv : sys.conv with
      | none =>
        unfold phaseInv at hphase
        rw [hconv] at hphase
        have := hphase.1 i (TaskPc.wroteRow t) hget
        simp at this
      | some pr =>
        rcases pr with ⟨t', b⟩
        cases b with
        | false =>
          unfold phaseInv at hphase
          rw [hconv] at hphase
          exact hphase.elim
        | true =>
          unfold phaseInv at hphase
          rw [hconv] at hphase
          obtain ⟨hc1, hall⟩ := hphase
          have hteq : t = t' := by
            have ha := hall i (TaskPc.wroteRow t) hget
            simpa using ha
          subst hteq
          constructor
          · simp only [lockInv]
            intro j pc hjget
            by_cases hji : j = i
            · subst hji
              rw [List.getElem?_set_eq_of_lt _ hlen] at hjget
              injection hjget with h2
              subst h2
              exact Or.inr ⟨t, rfl⟩
            · rw [List.getElem?_set_ne (fun he => hji he.symm)] at hjget
              exact hothers j pc hji hjget
          · simp only [phaseInv, hconv]
            refine ⟨hc1, ?_⟩
            intro j pc hjget
            by_cases hji : j = i
            · subst hji
              rw [List.getElem?_set_eq_of_lt _ hlen] at hjget
              injection hjget with h2
              subst h2
              exact Or.inr (Or.inr (Or.inr rfl))
            · rw [List.getElem?_set_ne (fun he => hji he.symm)] at hjget
              exact hall j pc hjget
    | finished t => cases hstep

theorem ensureStep_length (i : Nat) (sys sys' : EnsureSys)
    (hstep : ensureStep i sys = some sys') : sys'.tasks.length = sys.tasks.length := by
  unfold ensureStep at hstep
  cases hget : sys.tasks[i]? with
  | none => rw [hget] at hstep; cases hstep
  | some pc =>
    rw [hget] at hstep
    cases pc with
    | ready =>
      cases hh : sys.lockHolder with
      | some k => rw [hh] at hstep; cases hstep
      | none =>
        rw [hh] at hstep
        injection hstep with h
        subst h
        simp [List.length_set]
    | hasLock =>
      cases hconv : sys.conv with
      | none =>
        rw [hconv] at hstep
        injection hstep with h
        subst h
        simp [List.length_set]
      | some pr =>
        rcases pr with ⟨t, b⟩
        cases b with
        | true =>
          rw [hconv] at hstep
          injection hstep with h
          subst h
          simp [List.length_set]
        | false =>
          rw [hconv] at hstep
          injection hstep with h
          subst h
          simp [List.length_set]
    | created t =>
      injection hstep with h
      subst h
      simp [List.length_set]
    | wroteRow t =>
      injection hstep with h
      subst h
      simp [List.length_set]
    | finished t => cases hstep

theorem runSched_inv (sched : List Nat) (sys : EnsureSys) (hinv : sysInv sys) :
    sysInv (runSched sched sys) := by
  induction sched generalizing sys with
  | nil => exact hinv
  | cons i rest ih =>
    unfold runSched
    cases hstep : ensureStep i sys with
    | none => exact ih sys hinv
    | some sys' => exact ih sys' (ensureStep_inv i sys sys' hstep hinv)

theorem runSched_length (sched : List Nat) (sys : EnsureSys) :
    (runSched sched sys).tasks.length = sys.tasks.length := by
  induction sched generalizing sys with
  | nil => rfl
  | cons i rest ih =>
    unfold runSched
    cases hstep : ensureStep i sys with
    | none => exact ih sys
    | some sys' =>
      show (runSched rest sys').tasks.length = sys.tasks.length
      rw [ih sys']
      exact ensureStep_length i sys sys' hstep

theorem initSys_inv (n : Nat) (t0 : Int) : sysInv (initSys n t0) := by
  constructor
  · simp only [lockInv, initSys]
    intro j pc hj
    simp only [List.getElem?_replicate] at hj
    split at hj
    · injection hj with hj
      subst hj
      exact Or.inl rfl
    · cases hj
  · simp only [phaseInv, initSys]
    refine ⟨?_, ?_⟩
    · intro j pc hj
      simp only [List.getElem?_replicate] at hj
      split at hj
      · injection hj with hj
        subst hj
        exact Or.inl rfl
      · cases hj
    · have hrep : hasCreated (List.replicate n TaskPc.ready) = false := by
        unfold hasCreated
        rw [List.any_eq_false]
        intro x hx
        rw [List.eq_of_mem_replicate hx]
        simp [isCreatedB]
      simp [hrep]

/-- C7: for a previously-unseen user, N concurrent `ensure_topic` tasks —
interleaved arbitrarily at their Gateway/Store suspension points under
the per-user keyed lock — make exactly one topic-creation Gateway call,
leave exactly one persisted active Conversation, and every task that ran
to completion received the same topic id, for every schedule that
finishes all N tasks. -/
theorem c7_concurrent_ensure_topic (n : Nat) (t0 : Int) (sched : List Nat)
    (hn : 0 < n)
    (hdone : ((runSched sched (initSys n t0)).tasks.all isFinishedB) = true) :
    (runSched sched (initSys n t0)).creates = 1 ∧
    ∃ t, (runSched sched (initSys n t0)).conv = some (t, true) ∧
      ∀ (j : Nat) (pc : TaskPc), (runSched sched (initSys n t0)).tasks[j]? = some pc →
        pc = TaskPc.finished t := by
  obtain ⟨hlock, hphase⟩ := runSched_inv sched (initSys n t0) (initSys_inv n t0)
  have hlen : (runSched sched (initSys n t0)).tasks.length = n := by
    rw [runSched_length]
    simp [initSys]
  cases h0 : (runSched sched (initSys n t0)).tasks[0]? with
  | none =>
    have hle := List.getElem?_eq_none_iff.mp h0
    omega
  | some pc0 =>
    have hfin0 : isFinishedB pc0 = true :=
      List.all_eq_true.mp hdone pc0 (List.getElem?_mem h0)
    cases hconv : (runSched sched (initSys n t0)).conv with
    | none =>
      unfold phaseInv at hphase
      rw [hconv] at hphase
      have hmem := hphase.1 0 pc0 h0
      cases pc0 <;> simp [isFinishedB] at hfin0 hmem
    | some pr =>
      rcases pr with ⟨t, b⟩
      cases b with
      | false =>
        unfold phaseInv at hphase
        rw [hconv] at hphase
        exact hphase.elim
      | true =>
        unfold phaseInv at hphase
        rw [hconv] at hphase
        obtain ⟨hc1, hall⟩ := hphase
        refine ⟨hc1, t, rfl, ?_⟩
        intro j pc hj
        have hfin : isFinishedB pc = true :=
          List.all_eq_true.mp hdone pc (List.getElem?_mem hj)
        have ha := hall j pc hj
        cases pc <;> simp [isFinishedB] at hfin
        simpa using ha

/-- Witness for C7: two tasks under the interleaved schedule
`[0, 1, 0, 0, 0, 1, 1]` (task 1 attempts the lock mid-way and blocks)
finish with exactly one topic creation. -/
theorem c7_concurrent_ensure_topic_witness :
    (runSched [0, 1, 0, 0, 0, 1, 1] (initSys 2 100)).creates = 1 :=
  (c7_concurrent_ensure_topic 2 100 [0, 1, 0, 0, 0, 1, 1] (by decide) (by decide)).1

end SupportBot
